import Mathlib

/-!
Verification development for the mgear `pymaya` command-wrapping shim
(`release/scripts/mgear/pymaya/cmd.py`, `node.py`) and the FBX animation-clip
widget layer (`release/scripts/mgear/shifter/game_tools_fbx/anim_clip_widgets.py`).

The Python layer is shallowly embedded: Python runtime values are modelled by
the inductive `PyVal`, Python dictionaries by ordered association lists,
exceptions by `Except` with the error type `PyErr`, and the closed Maya host
(`maya.cmds`, `maya.api.OpenMaya`, the FBX export node) by explicit function
parameters standing for the host responses.
-/

namespace Mgear

/-- Python runtime values crossing the wrapper boundary.  `vNode` stands for a
bound `pymaya` node handle (a `bind.PyNode` object), `vVector`/`vPoint`/
`vMatrix` for `datatypes.Vector`/`Point`/`Matrix` objects holding their
component sequence, and `vOther` for any further opaque host object. -/
inductive PyVal where
  | vNone
  | vBool (b : Bool)
  | vInt (n : Int)
  | vStr (s : String)
  | vNode (name : String)
  | vVector (xs : List PyVal)
  | vPoint (xs : List PyVal)
  | vMatrix (xs : List PyVal)
  | vList (xs : List PyVal)
  | vSet (xs : List PyVal)
  | vTuple (xs : List PyVal)
  | vOther (tag : Nat)

/-- Exceptions observable from the embedded layer.  `mayaAttributeError` and
`mayaNodeError` are the locally defined types from `pymaya/exception.py`;
`hostError` is a raw (untranslated) host exception escaping a wrapper;
the rest model the built-in Python exceptions the code can raise. -/
inductive PyErr where
  | mayaAttributeError (args : List PyVal)
  | mayaNodeError (msg : String)
  | hostError (args : List PyVal)
  | attributeError (msg : String)
  | typeError (msg : String)
  | indexError (msg : String)
  | valueError (msg : String)

/-- A host-raised exception (e.g. `RuntimeError` out of `maya.cmds`),
identified by its argument tuple `e.args`. -/
structure HostErr where
  args : List PyVal

/-- Python truthiness (`bool(x)`) restricted to the values of `PyVal`:
`None`, `False`, `0`, empty strings and empty containers are falsy; node
handles and the OpenMaya-backed datatypes define no `__bool__`/`__len__`
and are therefore always truthy. -/
def pyTruthy : PyVal → Bool
  | .vNone => false
  | .vBool b => b
  | .vInt n => n != 0
  | .vStr s => !(s == "")
  | .vNode _ => true
  | .vVector _ => true
  | .vPoint _ => true
  | .vMatrix _ => true
  | .vList xs => !xs.isEmpty
  | .vSet xs => !xs.isEmpty
  | .vTuple xs => !xs.isEmpty
  | .vOther _ => true

/-- Lookup in an ordered association list (a Python `dict` keyed by strings,
in insertion order). -/
def alookup {α : Type} : List (String × α) → String → Option α
  | [], _ => none
  | (k, v) :: t, key => if k = key then some v else alookup t key

/-- `key in d` for a Python dict modelled as an association list. -/
def containsKey {α : Type} (l : List (String × α)) (key : String) : Bool :=
  (alookup l key).isSome

/-- `d[key] = v` on a Python dict: replaces the value in place when the key is
present (keeping insertion order), appends a new entry otherwise. -/
def ains {α : Type} : List (String × α) → String → α → List (String × α)
  | [], key, v => [(key, v)]
  | (k, w) :: t, key, v => if k = key then (key, v) :: t else (k, w) :: ains t key v

theorem alookup_ains_self {α : Type} (l : List (String × α)) (k : String) (v : α) :
    alookup (ains l k v) k = some v := by
  induction l with
  | nil => simp [ains, alookup]
  | cons h t ih =>
    obtain ⟨k', w⟩ := h
    by_cases hk : k' = k
    · simp [ains, hk, alookup]
    · simp [ains, hk, alookup, ih]

theorem alookup_ains_ne {α : Type} (l : List (String × α)) (k k' : String) (v : α)
    (h : k ≠ k') : alookup (ains l k v) k' = alookup l k' := by
  induction l with
  | nil => simp [ains, alookup, h]
  | cons hd t ih =>
    obtain ⟨k0, w⟩ := hd
    by_cases hk : k0 = k
    · subst hk
      simp [ains, alookup, h]
    · simp [ains, hk, alookup]
      by_cases hk' : k0 = k'
      · simp [hk']
      · simp [hk', ih]

/-- Keyword arguments of a wrapped command: a Python dict from flag names to
values. -/
abbrev Kwargs := List (String × PyVal)

/-- `s.startswith(p)` on Python strings. -/
def strStarts (s p : String) : Bool :=
  p.toList.isPrefixOf s.toList

/-- `s.endswith(p)` on Python strings. -/
def strEnds (s p : String) : Bool :=
  p.toList.reverse.isPrefixOf s.toList.reverse

mutual

/-- `cmd._obj_to_name`: replaces bound node handles by their name string,
mapping recursively through list/set/tuple containers (dict values are mapped
at the `Kwargs` level by `kwObjToName`); everything else passes unchanged. -/
def objToName : PyVal → PyVal
  | .vList xs => .vList (objToNameList xs)
  | .vSet xs => .vSet (objToNameList xs)
  | .vTuple xs => .vTuple (objToNameList xs)
  | .vNode n => .vStr n
  | v => v

/-- Elementwise `objToName` over a container's items. -/
def objToNameList : List PyVal → List PyVal
  | [] => []
  | x :: t => objToName x :: objToNameList t

end

/-- `cmd._obj_to_name` over a kwargs dict: keys are kept, values converted. -/
def kwObjToName (kw : Kwargs) : Kwargs :=
  kw.map (fun p => (p.1, objToName p.2))

mutual

/-- `cmd._dt_to_value`: unpacks `datatypes.Vector`/`Point`/`Matrix` into the
plain list of their components (3, 4 and 16 entries respectively in the
source; the model carries the component list directly), mapping recursively
through list/set/tuple containers. -/
def dtToValue : PyVal → PyVal
  | .vList xs => .vList (dtToValueList xs)
  | .vSet xs => .vSet (dtToValueList xs)
  | .vTuple xs => .vTuple (dtToValueList xs)
  | .vVector xs => .vList xs
  | .vPoint xs => .vList xs
  | .vMatrix xs => .vList xs
  | v => v

/-- Elementwise `dtToValue` over a container's items. -/
def dtToValueList : List PyVal → List PyVal
  | [] => []
  | x :: t => dtToValue x :: dtToValueList t

end

mutual

/-- `cmd._name_to_obj` at the default `SCOPE_NODE` scope: `None` passes
through, containers are rebuilt with their own class around the converted
items, and each string is offered to `bind.PyNode`; `bind` abstracts that
constructor, returning the bound node's name on success and `none` when the
constructor raises (in which case the string is returned unchanged).
Non-container, non-string values pass unchanged. -/
def nameToObj (bind : String → Option String) : PyVal → PyVal
  | .vNone => .vNone
  | .vList xs => .vList (nameToObjList bind xs)
  | .vSet xs => .vSet (nameToObjList bind xs)
  | .vTuple xs => .vTuple (nameToObjList bind xs)
  | .vStr s =>
    match bind s with
    | some n => .vNode n
    | none => .vStr s
  | v => v

/-- Elementwise `nameToObj` over a container's items. -/
def nameToObjList (bind : String → Option String) : List PyVal → List PyVal
  | [] => []
  | x :: t => nameToObj bind x :: nameToObjList bind t

end

theorem nameToObjList_eq_map (bind : String → Option String) (xs : List PyVal) :
    nameToObjList bind xs = xs.map (nameToObj bind) := by
  induction xs with
  | nil => rfl
  | cons x t ih => simp [nameToObjList, ih]

/-- `res[0]` on a Python value: defined for nonempty sequences, raises
`IndexError` on empty ones and `TypeError` on non-subscriptable values. -/
def pyIndex0 : PyVal → Except PyErr PyVal
  | .vList (x :: _) => .ok x
  | .vTuple (x :: _) => .ok x
  | .vStr s =>
    match s.toList with
    | c :: _ => .ok (.vStr (String.mk [c]))
    | [] => .error (.indexError "string index out of range")
  | .vList [] => .error (.indexError "list index out of range")
  | .vTuple [] => .error (.indexError "tuple index out of range")
  | _ => .error (.typeError "object is not subscriptable")

/-- The constraint-command filter inside `cmd._pymaya_cmd_wrap`: when the
wrapped command's name ends in `Constraint` and no `query` kwarg was passed,
the result is collapsed to `res[0] if res else None`. -/
def constraintStep (fname : String) (kw : Kwargs) (res : PyVal) : Except PyErr PyVal :=
  if strEnds fname "Constraint" && !(containsKey kw "query") then
    if pyTruthy res then pyIndex0 res else .ok .vNone
  else .ok res

/-- The list-command normalization inside `cmd._pymaya_cmd_wrap`: a `None`
result of a command whose name starts with `list` becomes the empty list. -/
def listNoneStep (fname : String) (res : PyVal) : PyVal :=
  match res with
  | .vNone => if strStarts fname "list" then .vList [] else .vNone
  | r => r

/-- Result post-processing of `cmd._pymaya_cmd_wrap` (for the default
`SCOPE_NODE` scope): the host result `res` of command `fname` goes through the
constraint filter and the list/None normalization, and is finally re-wrapped
by `_name_to_obj` when the wrapper was built with `wrap_object=True`. -/
def pymayaCmdWrap (bind : String → Option String) (fname : String) (wrapObject : Bool)
    (kw : Kwargs) (res : PyVal) : Except PyErr PyVal :=
  match constraintStep fname kw res with
  | .error e => .error e
  | .ok r =>
    .ok (if wrapObject then nameToObj bind (listNoneStep fname r) else listNoneStep fname r)

/-- The argument flattening inside `cmd.setAttr`: each positional argument
that is a list, set or tuple is spliced into the flat argument list, every
other argument is appended as-is (one level only). -/
def flattenArgs : List PyVal → List PyVal
  | [] => []
  | .vList xs :: t => xs ++ flattenArgs t
  | .vSet xs :: t => xs ++ flattenArgs t
  | .vTuple xs :: t => xs ++ flattenArgs t
  | a :: t => a :: flattenArgs t

/-- `isinstance(v, str)`. -/
def isStr : PyVal → Bool
  | .vStr _ => true
  | _ => false

/-- The flat positional arguments `cmd.setAttr` hands to `cmds.setAttr`:
`args` after `_dt_to_value(_obj_to_name(args))`, then flattened. -/
def setAttrFargs (args : List PyVal) : List PyVal :=
  flattenArgs (dtToValueList (objToNameList args))

/-- The keyword arguments `cmd.setAttr` hands to `cmds.setAttr`: the caller's
kwargs after `_obj_to_name`, with `type="string"` injected exactly when the
flat positional arguments number two, the second is a string, and neither
`typ` nor `type` is present. -/
def setAttrHostKwargs (args : List PyVal) (kw : Kwargs) : Kwargs :=
  let kwN := kwObjToName kw
  let fargs := setAttrFargs args
  if fargs.length == 2
      && (match fargs[1]? with | some v => isStr v | none => false)
      && !(containsKey kwN "typ") && !(containsKey kwN "type")
  then ains kwN "type" (.vStr "string")
  else kwN

/-- `cmd.setAttr`: normalizes and flattens the arguments, possibly injects
`type="string"`, performs the single `cmds.setAttr` host call (abstracted by
`host`), and translates any host exception into `MayaAttributeError` carrying
the host error's arguments. -/
def setAttr (host : List PyVal → Kwargs → Except HostErr Unit)
    (args : List PyVal) (kw : Kwargs) : Except PyErr Unit :=
  match host (setAttrFargs args) (setAttrHostKwargs args kw) with
  | .error e => .error (.mayaAttributeError e.args)
  | .ok _ => .ok ()

/-- `datatypes.Vector(x)` as used by `cmd.getAttr`: accepts a component
sequence. -/
def toVector : PyVal → Except PyErr PyVal
  | .vTuple xs => .ok (.vVector xs)
  | .vList xs => .ok (.vVector xs)
  | .vVector xs => .ok (.vVector xs)
  | _ => .error (.typeError "Vector expects a sequence")

/-- `datatypes.Point(x)` as used by `cmd.getAttr`. -/
def toPoint : PyVal → Except PyErr PyVal
  | .vTuple xs => .ok (.vPoint xs)
  | .vList xs => .ok (.vPoint xs)
  | .vPoint xs => .ok (.vPoint xs)
  | _ => .error (.typeError "Point expects a sequence")

/-- The `vectorArray` regrouping in `cmd.getAttr`:
`[Vector(res[i], res[i+1], res[i+2]) for i in range(0, len(res), 3)]`,
which raises `IndexError` when the length is not a multiple of three. -/
def chunk3 : List PyVal → Except PyErr (List PyVal)
  | [] => .ok []
  | a :: b :: c :: rest => (chunk3 rest).map (fun l => .vVector [a, b, c] :: l)
  | _ => .error (.indexError "list index out of range")

/-- The post-processing `cmd.getAttr` applies to a nonempty list result, given
the attribute type `at_` reported by the auxiliary
`cmds.getAttr(args[0], type=True)` query.  When the first element is a tuple:
`pointArray` maps every tuple through `Vector`, `vectorArray` through `Point`,
a type name ending in `3` wraps the first tuple into a `Vector`, anything else
returns the first element; a non-string type value reaches `at.endswith` and
raises `AttributeError`.  Otherwise: `vectorArray` regroups into vectors of
three, `matrix` builds a `Matrix`, anything else returns the list unchanged. -/
def getAttrPost (at_ : PyVal) (res : List PyVal) : Except PyErr PyVal :=
  match res with
  | .vTuple txs :: _ =>
    match at_ with
    | .vStr s =>
      if s = "pointArray" then (res.mapM toVector).map PyVal.vList
      else if s = "vectorArray" then (res.mapM toPoint).map PyVal.vList
      else if strEnds s "3" then toVector (.vTuple txs)
      else .ok (.vTuple txs)
    | _ => .error (.attributeError "object has no attribute endswith")
  | _ =>
    match at_ with
    | .vStr s =>
      if s = "vectorArray" then (chunk3 res).map PyVal.vList
      else if s = "matrix" then .ok (.vMatrix res)
      else .ok (.vList res)
    | _ => .ok (.vList res)

/-- `cmd.getAttr`.  `host n` is the host's response to the `(n+1)`-th
`cmds.getAttr` call issued by this invocation: call `0` is the primary query
`cmds.getAttr(*args, **kwargs)` (the only call inside the `try` block), call
`1` is the auxiliary type query `cmds.getAttr(args[0], type=True)` issued when
the primary result is a nonempty list.  Returns the wrapper's outcome paired
with the number of host calls made.  An exception of call `0` is translated
into `MayaAttributeError`; an exception of call `1` happens outside the `try`
block and propagates as the raw host error. -/
def getAttr (host : Nat → Except HostErr PyVal) : Except PyErr PyVal × Nat :=
  match host 0 with
  | .error e => (.error (.mayaAttributeError e.args), 1)
  | .ok res =>
    match res with
    | .vList (x :: xs) =>
      match host 1 with
      | .error e => (.error (.hostError e.args), 2)
      | .ok at_ => (getAttrPost at_ (x :: xs), 2)
    | r => (.ok r, 1)

/-- Truthiness of an optional string parameter (`if exactType:` /
`if type:` in `cmd.listHistory`): absent (`None`) and empty strings are
falsy. -/
def strTruthy : Option String → Bool
  | none => false
  | some s => !(s == "")

/-- `cmd.listHistory`: the host result (`cmds.listHistory(...) or []`,
abstracted by `host`, `none` standing for a `None` return) is filtered by
exact node type, else by inherited node type, and re-wrapped through
`_name_to_obj`.  `nodeTypeOf` abstracts `cmds.nodeType(x)` and
`inheritedTypesOf` abstracts `cmds.nodeType(x, inherited=True)`. -/
def listHistory (bind : String → Option String) (nodeTypeOf : String → String)
    (inheritedTypesOf : String → List String)
    (typ exactType : Option String) (host : Option (List String)) : PyVal :=
  let res := host.getD []
  let res2 :=
    if strTruthy exactType then res.filter (fun x => nodeTypeOf x == exactType.getD "")
    else if strTruthy typ then res.filter (fun x => (inheritedTypesOf x).contains (typ.getD ""))
    else res
  nameToObj bind (.vList (res2.map PyVal.vStr))

/-- First statement of the `sourceFirst` branch of `cmd.listConnections`:
`if "source" not in kwargs or not kwargs["source"]: kwargs["source"] = True`. -/
def lcForceSource (kw : Kwargs) : Kwargs :=
  match alookup kw "source" with
  | none => ains kw "source" (.vBool true)
  | some v => if pyTruthy v then kw else ains kw "source" (.vBool true)

/-- Second statement of the `sourceFirst` branch of `cmd.listConnections`:
`if "destination" not in kwargs or kwargs["destination"]:
kwargs["destination"] = False`. -/
def lcForceDest (kw : Kwargs) : Kwargs :=
  match alookup kw "destination" with
  | none => ains kw "destination" (.vBool false)
  | some v => if pyTruthy v then ains kw "destination" (.vBool false) else kw

/-- The kwargs of the first (source-side) query of
`cmd.listConnections(sourceFirst=True)`: `source` is forced truthy unless
already truthy, then `destination` is forced to `False` unless already
falsy. -/
def lcSourceKwargs (kw : Kwargs) : Kwargs :=
  lcForceDest (lcForceSource kw)

/-- The kwargs of the second (destination-side) query of
`cmd.listConnections(sourceFirst=True)`: the first query's kwargs with
`source=False` and `destination=True`. -/
def lcDestKwargs (kw : Kwargs) : Kwargs :=
  ains (ains (lcSourceKwargs kw) "source" (.vBool false)) "destination" (.vBool true)

/-- The source-side pair comprehension of `cmd.listConnections`:
`[(connections[i+1], connections[i]) for i in range(0, len(connections), 2)]`,
raising `IndexError` on an odd-length list. -/
def pairUpSwap : List String → Except PyErr (List (String × String))
  | [] => .ok []
  | [_] => .error (.indexError "list index out of range")
  | a :: b :: rest => (pairUpSwap rest).map (fun l => (b, a) :: l)

/-- The destination-side pair comprehension of `cmd.listConnections`:
`[(connections[i], connections[i+1]) for i in range(0, len(connections), 2)]`,
raising `IndexError` on an odd-length list. -/
def pairUp : List String → Except PyErr (List (String × String))
  | [] => .ok []
  | [_] => .error (.indexError "list index out of range")
  | a :: b :: rest => (pairUp rest).map (fun l => (a, b) :: l)

/-- A name pair as the Python tuple the comprehensions build. -/
def pairToTuple (p : String × String) : PyVal :=
  .vTuple [.vStr p.1, .vStr p.2]

/-- `cmd.listConnections`.  `host n kw` is the host's response (`none` for a
`None` return) to the `(n+1)`-th `cmds.listConnections` call of this
invocation, issued with kwargs `kw`.  With `sourceFirst=True` the source side
is queried first and emitted as swapped pairs, then the destination side is
queried and emitted as in-place pairs, and the destination pairs precede the
source pairs in the result; otherwise the single host call's result is
returned.  Either way the result goes through `_name_to_obj`. -/
def listConnections (bind : String → Option String)
    (host : Nat → Kwargs → Option (List String))
    (sourceFirst : Bool) (kw : Kwargs) : Except PyErr PyVal :=
  if sourceFirst then
    let conns1 := (host 0 (lcSourceKwargs kw)).getD []
    match pairUpSwap conns1 with
    | .error e => .error e
    | .ok resSource =>
      let conns2 := (host 1 (lcDestKwargs kw)).getD []
      match pairUp conns2 with
      | .error e => .error e
      | .ok resDest =>
        .ok (nameToObj bind (.vList ((resDest ++ resSource).map pairToTuple)))
  else
    .ok (nameToObj bind (.vList (((host 0 kw).getD []).map PyVal.vStr)))

/-- The OpenMaya function-set kinds `node._Node.__init__` queries via
`MObject.hasFn`. -/
inductive MFn where
  | kDependencyNode
  | kDagNode
  | kTransform
deriving DecidableEq

/-- An `OpenMaya.MObject`, abstracted to the capability queries the wrapper
makes of it. -/
structure MObj where
  hasFn : MFn → Bool

/-- The observable outcome of `node._Node.__init__`: which method attributes
got bound on the fresh instance (`self.getParent = partial(...)` and friends),
plus the `__is_transform` flag and whether a DAG function set was created. -/
structure NodeHandle where
  hasGetParent : Bool
  hasGetChildren : Bool
  hasAddChild : Bool
  isTransform : Bool
  hasGetBoundingBox : Bool
  hasGetPivots : Bool
  hasSetTransformation : Bool
  hasGetTransformation : Bool
  hasGetShape : Bool
  hasGetShapes : Bool
  hasSetMatrix : Bool
  hasGetMatrix : Bool
  hasGetTranslation : Bool
  hasSetTranslation : Bool
  hasSetRotation : Bool
  hasGetRotation : Bool
  hasGetScale : Bool
  hasSetScale : Bool
  hasDagFn : Bool
deriving DecidableEq

/-- `node._Node.__init__` once an `MObject` is in hand (`disp` is the textual
form of the constructor argument used in error messages): objects without the
dependency-node function set are rejected with `MayaNodeError`; the DAG
methods are bound when the object has the DAG-node function set, and inside
that branch the transform methods are bound when it also has the transform
function set. -/
def nodeInitObj (disp : String) (obj : MObj) : Except PyErr NodeHandle :=
  if !(obj.hasFn .kDependencyNode) then
    .error (.mayaNodeError ("Not a dependency node " ++ disp))
  else
    let dag := obj.hasFn .kDagNode
    let tf := dag && obj.hasFn .kTransform
    .ok {
      hasGetParent := dag
      hasGetChildren := dag
      hasAddChild := dag
      isTransform := tf
      hasGetBoundingBox := tf
      hasGetPivots := tf
      hasSetTransformation := tf
      hasGetTransformation := tf
      hasGetShape := tf
      hasGetShapes := tf
      hasSetMatrix := tf
      hasGetMatrix := tf
      hasGetTranslation := tf
      hasSetTranslation := tf
      hasSetRotation := tf
      hasGetRotation := tf
      hasGetScale := tf
      hasSetScale := tf
      hasDagFn := dag }

/-- `node._Node.__init__` entered with a node name: the name is resolved
through the class selection list (`__getObjectFromName`, abstracted by
`resolve`, `none` when `MSelectionList.add` raises), and an unresolvable name
raises `MayaNodeError`. -/
def nodeInitName (resolve : String → Option MObj) (name : String) :
    Except PyErr NodeHandle :=
  match resolve name with
  | none => .error (.mayaNodeError ("No such node " ++ name))
  | some obj => nodeInitObj name obj

/-- A command wrapper object held by the `_Mel` proxy cache; the `id` field
models Python object identity (each constructed wrapper is a fresh object). -/
inductive MelWrapper where
  | cmdWrap (id : Nat)
  | melProc (name : String) (id : Nat)
  | instW (tag : Nat)
deriving DecidableEq

/-- The environment `_Mel.__getattribute__` consults: `instAttr` abstracts a
successful `super().__getattribute__` (instance/class attributes), `evalW` is
the instance's `eval` attribute, `hasCmd name` tells whether
`getattr(cmds, name, None)` is not `None`, and `whatIs` is the result of the
MEL `whatIs` query. -/
structure MelEnv where
  instAttr : String → Option MelWrapper
  evalW : MelWrapper
  hasCmd : String → Bool
  whatIs : String → String

/-- The mutable state of the `_Mel` singleton: the `__cmds` name→wrapper cache
and a fresh-identity counter for newly constructed wrapper objects. -/
structure MelState where
  cache : List (String × MelWrapper)
  fresh : Nat

/-- `_Mel.__getattribute__`: instance attributes win; otherwise the `__cmds`
cache is consulted and a hit is returned as-is; on a miss, `eval` is answered
directly, then a `cmds` command is wrapped with
`_pymaya_cmd_wrap(incmd, wrap_object=False)` and cached, then a name that
`whatIs` reports as a sourced `.mel` procedure is wrapped as a
`functools` `partial` of `__wrap_mel` and cached, and any other name re-raises
`AttributeError`. -/
def melGetattr (env : MelEnv) (st : MelState) (name : String) :
    Except PyErr (MelWrapper × MelState) :=
  match env.instAttr name with
  | some w => .ok (w, st)
  | none =>
    match alookup st.cache name with
    | some w => .ok (w, st)
    | none =>
      if name = "eval" then .ok (env.evalW, st)
      else if env.hasCmd name then
        let w := MelWrapper.cmdWrap st.fresh
        .ok (w, ⟨ains st.cache name w, st.fresh + 1⟩)
      else if strEnds (env.whatIs name) ".mel" then
        let w := MelWrapper.melProc name st.fresh
        .ok (w, ⟨ains st.cache name w, st.fresh + 1⟩)
      else .error (.attributeError name)

/-- Digit run value, for the `[0-9]+` group of `node.RE_ATTR_INDEX`. -/
def digitsToNat (ds : List Char) : Nat :=
  ds.foldl (fun acc c => acc * 10 + (c.toNat - 48)) 0

/-- Splits a leading digit run off a character list. -/
def takeDigits : List Char → List Char × List Char
  | [] => ([], [])
  | c :: t =>
    if c.isDigit then
      let (ds, r) := takeDigits t
      (c :: ds, r)
    else ([], c :: t)

/-- `RE_ATTR_INDEX.search`: the position and value of the first
`[digits]` occurrence, scanning left to right. -/
def findBracketIndex : List Char → Nat → Option (Nat × Nat)
  | [], _ => none
  | '[' :: t, pos =>
    (match takeDigits t with
     | (d :: ds, ']' :: _) => some (pos, digitsToNat (d :: ds))
     | _ => findBracketIndex t (pos + 1))
  | _ :: t, pos => findBracketIndex t (pos + 1)

/-- The index parsing at the top of `node._Node.attr`: on a match, `attrname`
is the text before the first `[digits]` and `idx` its value. -/
def parseAttrIndex (name : String) : String × Option Nat :=
  match findBracketIndex name.toList 0 with
  | none => (name, none)
  | some (pos, idx) => (String.mk (name.toList.take pos), some idx)

/-- An `attr.Attribute` wrapper as cached by `_Node.attr`: a plug (abstracted
to a host identifier) possibly narrowed by `at[idx]`; the `id` field models
Python object identity of the constructed wrapper. -/
inductive AttrObj where
  | plugAttr (plug : Nat) (id : Nat)
  | plugIndex (plug : Nat) (idx : Nat) (id : Nat)
deriving DecidableEq

/-- The host lookups `_Node.attr` makes: `findPlug` abstracts
`fn_dg.findPlug(attrname, False)` (`none` when it raises), and
`shapeFindPlug` is the shape's `dgFn().findPlug` when `getShape()` returns a
shape, `none` when there is no shape.  (On a non-transform node the source's
shape fallback would itself fail to look up the unbound `getShape` attribute;
that corner, an `AttributeError` escaping the except handler, is folded into
the no-shape outcome here and is not relied on by any claim.) -/
structure AttrEnv where
  findPlug : String → Option Nat
  shapeFindPlug : Option (String → Option Nat)

/-- The per-handle state of `_Node.attr`: the `__attrs` name→Attribute cache
and a fresh-identity counter for newly built wrappers. -/
structure AttrState where
  cache : List (String × AttrObj)
  fresh : Nat

/-- `attr.Attribute(p)` followed by the optional `at[idx]` narrowing. -/
def attrFromPlug (p : Nat) (idx : Option Nat) (fresh : Nat) : AttrObj :=
  match idx with
  | none => .plugAttr p fresh
  | some i => .plugIndex p i fresh

/-- `node._Node.attr`: a cached name is answered from `__attrs` untouched;
on a miss the name is split into attribute name and optional index, the plug
is looked up on the node's dependency function set and, failing that (with
`checkShape` set and a shape present), on the shape; a missing plug raises
`MayaAttributeError`, otherwise the built `Attribute` is stored in the cache
and returned. -/
def nodeAttr (env : AttrEnv) (checkShape : Bool) (st : AttrState) (name : String) :
    Except PyErr (AttrObj × AttrState) :=
  match alookup st.cache name with
  | some a => .ok (a, st)
  | none =>
    let pr := parseAttrIndex name
    let p? : Option Nat :=
      match env.findPlug pr.1 with
      | some p => some p
      | none =>
        if checkShape then
          match env.shapeFindPlug with
          | some f => f pr.1
          | none => none
        else none
    match p? with
    | none => .error (.mayaAttributeError [.vStr ("No " ++ name ++ " attr found")])
    | some p =>
      let a := attrFromPlug p pr.2 st.fresh
      .ok (a, ⟨ains st.cache name a, st.fresh + 1⟩)

/-- A node class held by the `_NodeTypes` registry: either one registered with
an explicit `cls` or a subclass generated by `registerClass`; the `id` field
models Python class-object identity. -/
inductive NodeClass where
  | explicitCls (tag : Nat)
  | autoCls (clsname : String) (id : Nat)
deriving DecidableEq

/-- The mutable state of the `_NodeTypes` singleton: the `__types`
typename→class dict and a fresh-identity counter for generated classes. -/
structure TypesState where
  types : List (String × NodeClass)
  fresh : Nat

/-- `"{}{}".format(typename[0].upper(), typename[1:])` (total at the empty
string, which the source never passes). -/
def capitalizeFirst (s : String) : String :=
  match s.toList with
  | [] => ""
  | c :: t => String.mk (c.toUpper :: t)

/-- `_NodeTypes.registerClass`: stores the explicit class when one is given,
otherwise generates a fresh `_Node` subclass named after the capitalized
typename and stores it. -/
def registerClass (st : TypesState) (typename : String) (cls : Option NodeClass) :
    TypesState :=
  match cls with
  | some c => { st with types := ains st.types typename c }
  | none =>
    ⟨ains st.types typename (.autoCls (capitalizeFirst typename) st.fresh), st.fresh + 1⟩

/-- `_NodeTypes.getTypeClass`: a registered typename is answered from
`__types` untouched; an unregistered typename that the host knows
(`cmds.allNodeTypes()`) is auto-registered and the stored class returned; any
other typename yields `None`. -/
def getTypeClass (allNodeTypes : List String) (st : TypesState) (typename : String) :
    Option NodeClass × TypesState :=
  match alookup st.types typename with
  | some c => (some c, st)
  | none =>
    if allNodeTypes.contains typename then
      let st' := registerClass st typename none
      (alookup st'.types typename, st')
    else (none, st)

/-- A value stored in an animation-clip record. -/
inductive ClipVal where
  | cs (s : String)
  | ci (i : Int)
  | cb (b : Bool)
  | copaque (tag : Nat)
deriving DecidableEq

/-- An animation-clip record: the dict handed to
`FbxExportNode.update_animation_clip`. -/
abbrev ClipRecord := List (String × ClipVal)

/-- The widget inputs `AnimClipWidget._on_update_anim_clip` reads: the clip
name line edit, the export checkbox, the two frame line edits (as their raw
text) and the animation-layer combo box current text. -/
structure ClipWidgetState where
  clipNameText : String
  exportChecked : Bool
  startFrameText : String
  endFrameText : String
  animLayerCurrentText : String

/-- Value of a nonempty all-digit character run, `none` otherwise. -/
def digitsVal (cs : List Char) : Option Nat :=
  match cs with
  | [] => none
  | _ => if cs.all Char.isDigit then some (digitsToNat cs) else none

/-- Whitespace stripping, as `int()` applies to its argument. -/
def trimChars (cs : List Char) : List Char :=
  ((cs.dropWhile Char.isWhitespace).reverse.dropWhile Char.isWhitespace).reverse

/-- Python `int(s)` on line-edit text: optional surrounding whitespace and an
optional sign before a digit run; anything else raises `ValueError`. -/
def pyInt? (s : String) : Option Int :=
  match trimChars s.toList with
  | '-' :: rest => (digitsVal rest).map (fun n => -(n : Int))
  | '+' :: rest => (digitsVal rest).map (fun n => (n : Int))
  | cs => (digitsVal cs).map (fun n => (n : Int))

/-- The animation-layer field written by `_on_update_anim_clip`:
`anim_layer if anim_layer and anim_layer != "None" else ""`. -/
def animLayerValue (layer : String) : String :=
  if layer ≠ "" ∧ layer ≠ "None" then layer else ""

/-- `AnimClipWidget._on_update_anim_clip`, from the copy of
`FbxExportNode.ANIM_CLIP_DATA` (`template`, an external constant modelled as
an arbitrary record) to the record handed to `update_animation_clip`: writes
`title`, `enabled`, `start_frame` (`int` of the box text), `end_frame` (`int`
of the box text) and `animLayer`, in that order; `int()` raises `ValueError`
on unparsable text.  The `frame_rate` line of the source is commented out. -/
def onUpdateAnimClip (template : ClipRecord) (w : ClipWidgetState) :
    Except PyErr ClipRecord :=
  let d1 := ains template "title" (.cs w.clipNameText)
  let d2 := ains d1 "enabled" (.cb w.exportChecked)
  match pyInt? w.startFrameText with
  | none => .error (.valueError "invalid literal for int()")
  | some sf =>
    let d3 := ains d2 "start_frame" (.ci sf)
    match pyInt? w.endFrameText with
    | none => .error (.valueError "invalid literal for int()")
    | some ef =>
      let d4 := ains d3 "end_frame" (.ci ef)
      .ok (ains d4 "animLayer" (.cs (animLayerValue w.animLayerCurrentText)))

/-- `AnimClipsListWidget._add_animation_clip`: constructs an
`AnimClipWidget` row for the name and appends it to the clips layout, with no
duplicate check (the widget rows are modelled by their clip names). -/
def addAnimationClip (clips : List String) (clipName : String) : List String :=
  clips ++ [clipName]

/-- `AnimClipsListWidget._on_add_animation_clip_button_clicked`: without a
root joint only a warning is emitted; otherwise the export node's
`add_animation_clip` (abstracted by `newClipName`, `none` for a `None`
return) supplies the new name, a falsy name only warns, and a usable name is
appended through `_add_animation_clip`. -/
def onAddAnimClipButtonClicked (rootJoint : Option String)
    (newClipName : Option String) (clips : List String) : List String :=
  match rootJoint with
  | none => clips
  | some _ =>
    match newClipName with
    | none => clips
    | some n => if n = "" then clips else addAnimationClip clips n

/-- The injection condition of claim C9, written from the claim text: the
flattened positional arguments number exactly two, the second one is a
string, and neither `typ` nor `type` is among the caller's keyword
arguments. -/
def setAttrClaimCond (args : List PyVal) (kw : Kwargs) : Bool :=
  (setAttrFargs args).length == 2
  && (match (setAttrFargs args)[1]? with | some v => isStr v | none => false)
  && !(containsKey kw "typ") && !(containsKey kw "type")

/-- Claim-side pairing of C10: consecutive pairs `(a, b)` of a flat list,
emitted in place. -/
def pairsInOrder : List String → List (String × String)
  | a :: b :: rest => (a, b) :: pairsInOrder rest
  | _ => []

/-- Claim-side pairing of C10: consecutive pairs `(a, b)` of a flat list,
emitted swapped as `(b, a)`. -/
def pairsSwapped : List String → List (String × String)
  | a :: b :: rest => (b, a) :: pairsSwapped rest
  | _ => []

/-- A concrete host behaviour refuting claim C1 as stated: the primary
`cmds.getAttr` query succeeds with a nonempty list, and the auxiliary type
query (the second host call) raises. -/
def cexHost : Nat → Except HostErr PyVal :=
  fun n => if n = 0 then .ok (.vList [.vInt 1]) else .error ⟨[.vStr "boom"]⟩

/-- The node handle produced for an object carrying every function set
(a transform node): every lazily bound method is present. -/
def transformHandle : NodeHandle :=
  ⟨true, true, true, true, true, true, true, true, true, true, true, true, true,
   true, true, true, true, true, true⟩

theorem containsKey_kwObjToName (kw : Kwargs) (k : String) :
    containsKey (kwObjToName kw) k = containsKey kw k := by
  induction kw with
  | nil => rfl
  | cons h t ih =>
    obtain ⟨k0, v⟩ := h
    by_cases hk : k0 = k
    · simp [kwObjToName, containsKey, alookup, hk]
    · simp only [kwObjToName, containsKey, alookup, List.map, hk, if_false] at ih ⊢
      simpa [hk] using ih

/-- C6: clip name uniqueness is not enforced by the widget layer:
`_add_animation_clip` appends a new clip row unconditionally, also through
the Add Clip button path, even when a row with the same name is already
present. -/
theorem add_anim_clip_unconditional :
    ∀ (clips : List String) (name : String), name ∈ clips →
      addAnimationClip clips name = clips ++ [name] ∧
      (addAnimationClip clips name).length = clips.length + 1 ∧
      ∀ root : String, name ≠ "" →
        onAddAnimClipButtonClicked (some root) (some name) clips = clips ++ [name] := by
  intro clips name _
  refine ⟨rfl, by simp [addAnimationClip], ?_⟩
  intro root hne
  simp [onAddAnimClipButtonClicked, hne, addAnimationClip]

theorem add_anim_clip_unconditional_witness :
    addAnimationClip ["walk"] "walk" = ["walk", "walk"] ∧
    onAddAnimClipButtonClicked (some "root") (some "walk") ["walk"] = ["walk", "walk"] := by
  have h := add_anim_clip_unconditional ["walk"] "walk" (by simp)
  exact ⟨h.1, h.2.2 "root" (by decide)⟩

/-- C9: `setAttr` injects `type="string"` into the keyword arguments handed
to the host exactly when the flattened positional arguments number two, the
second is a string, and neither `typ` nor `type` is among the caller's
keyword arguments; otherwise the keyword arguments are forwarded (value
conversion apart) without this addition. -/
theorem setAttr_string_type_injection :
    ∀ (args : List PyVal) (kw : Kwargs),
      setAttrHostKwargs args kw =
        if setAttrClaimCond args kw then ains (kwObjToName kw) "type" (.vStr "string")
        else kwObjToName kw := by
  intro args kw
  simp only [setAttrHostKwargs, setAttrClaimCond, containsKey_kwObjToName]

/-- C5: the update handler writes exactly `title`, `enabled`, `start_frame`
(the parsed integer), `end_frame` (the parsed integer) and `animLayer` (the
selected layer, or `""` when the selection is empty or `"None"`) into the
record it sends to the export node; every other key keeps the template's
value. -/
theorem anim_clip_update_fields :
    ∀ (template : ClipRecord) (w : ClipWidgetState) (d : ClipRecord) (sf ef : Int),
      pyInt? w.startFrameText = some sf →
      pyInt? w.endFrameText = some ef →
      onUpdateAnimClip template w = .ok d →
      alookup d "title" = some (.cs w.clipNameText) ∧
      alookup d "enabled" = some (.cb w.exportChecked) ∧
      alookup d "start_frame" = some (.ci sf) ∧
      alookup d "end_frame" = some (.ci ef) ∧
      alookup d "animLayer" = some (.cs (animLayerValue w.animLayerCurrentText)) ∧
      ∀ k : String, k ≠ "title" → k ≠ "enabled" → k ≠ "start_frame" →
        k ≠ "end_frame" → k ≠ "animLayer" → alookup d k = alookup template k := by
  intro template w d sf ef hsf hef h
  simp only [onUpdateAnimClip, hsf, hef, Except.ok.injEq] at h
  subst h
  refine ⟨?_, ?_, ?_, ?_, ?_, ?_⟩
  · rw [alookup_ains_ne _ _ _ _ (by decide), alookup_ains_ne _ _ _ _ (by decide),
      alookup_ains_ne _ _ _ _ (by decide), alookup_ains_ne _ _ _ _ (by decide),
      alookup_ains_self]
  · rw [alookup_ains_ne _ _ _ _ (by decide), alookup_ains_ne _ _ _ _ (by decide),
      alookup_ains_ne _ _ _ _ (by decide), alookup_ains_self]
  · rw [alookup_ains_ne _ _ _ _ (by decide), alookup_ains_ne _ _ _ _ (by decide),
      alookup_ains_self]
  · rw [alookup_ains_ne _ _ _ _ (by decide), alookup_ains_self]
  · rw [alookup_ains_self]
  · intro k h1 h2 h3 h4 h5
    rw [alookup_ains_ne _ _ _ _ (Ne.symm h5), alookup_ains_ne _ _ _ _ (Ne.symm h4),
      alookup_ains_ne _ _ _ _ (Ne.symm h3), alookup_ains_ne _ _ _ _ (Ne.symm h2),
      alookup_ains_ne _ _ _ _ (Ne.symm h1)]

theorem anim_clip_update_fields_witness :
    alookup [("path", ClipVal.cs "/tmp"), ("title", ClipVal.cs "walk"),
      ("enabled", ClipVal.cb true), ("start_frame", ClipVal.ci 1),
      ("end_frame", ClipVal.ci 100), ("animLayer", ClipVal.cs "")] "title" =
      some (ClipVal.cs "walk") ∧
    alookup [("path", ClipVal.cs "/tmp"), ("title", ClipVal.cs "walk"),
      ("enabled", ClipVal.cb true), ("start_frame", ClipVal.ci 1),
      ("end_frame", ClipVal.ci 100), ("animLayer", ClipVal.cs "")] "path" =
      alookup [("path", ClipVal.cs "/tmp")] "path" := by
  have h := anim_clip_update_fields [("path", .cs "/tmp")] ⟨"walk", true, "1", "100", "None"⟩
    [("path", ClipVal.cs "/tmp"), ("title", ClipVal.cs "walk"),
      ("enabled", ClipVal.cb true), ("start_frame", ClipVal.ci 1),
      ("end_frame", ClipVal.ci 100), ("animLayer", ClipVal.cs "")] 1 100 rfl rfl rfl
  exact ⟨h.1, h.2.2.2.2.2 "path" (by decide) (by decide) (by decide) (by decide) (by decide)⟩

/-- C4: for every handle `_Node.__init__` constructs from an object (under
the host invariant that every transform carries the DAG-node function set),
`getParent`/`getChildren`/`addChild` are bound iff the object has the
DAG-node function set, the transform-only methods are bound iff it has the
transform function set, and a plain dependency node gets none of these
attributes bound. -/
theorem node_lazy_binding :
    ∀ (obj : MObj) (disp : String) (h : NodeHandle),
      (obj.hasFn .kTransform = true → obj.hasFn .kDagNode = true) →
      nodeInitObj disp obj = .ok h →
      (h.hasGetParent = obj.hasFn .kDagNode ∧
       h.hasGetChildren = obj.hasFn .kDagNode ∧
       h.hasAddChild = obj.hasFn .kDagNode) ∧
      (h.hasGetBoundingBox = obj.hasFn .kTransform ∧
       h.hasGetPivots = obj.hasFn .kTransform ∧
       h.hasSetTransformation = obj.hasFn .kTransform ∧
       h.hasGetTransformation = obj.hasFn .kTransform ∧
       h.hasGetShape = obj.hasFn .kTransform ∧
       h.hasGetShapes = obj.hasFn .kTransform ∧
       h.hasSetMatrix = obj.hasFn .kTransform ∧
       h.hasGetMatrix = obj.hasFn .kTransform ∧
       h.hasGetTranslation = obj.hasFn .kTransform ∧
       h.hasSetTranslation = obj.hasFn .kTransform ∧
       h.hasSetRotation = obj.hasFn .kTransform ∧
       h.hasGetRotation = obj.hasFn .kTransform ∧
       h.hasGetScale = obj.hasFn .kTransform ∧
       h.hasSetScale = obj.hasFn .kTransform) ∧
      (obj.hasFn .kDagNode = false →
        h.hasGetParent = false ∧ h.hasGetChildren = false ∧ h.hasAddChild = false ∧
        h.hasGetBoundingBox = false ∧ h.hasGetPivots = false ∧
        h.hasSetTransformation = false ∧ h.hasGetTransformation = false ∧
        h.hasGetShape = false ∧ h.hasGetShapes = false ∧
        h.hasSetMatrix = false ∧ h.hasGetMatrix = false ∧
        h.hasGetTranslation = false ∧ h.hasSetTranslation = false ∧
        h.hasSetRotation = false ∧ h.hasGetRotation = false ∧
        h.hasGetScale = false ∧ h.hasSetScale = false) := by
  intro obj disp h htrans hinit
  cases hdep : obj.hasFn .kDependencyNode with
  | false => simp [nodeInitObj, hdep] at hinit
  | true =>
    simp only [nodeInitObj, hdep, Bool.not_true, Bool.false_eq_true, if_false,
      Except.ok.injEq] at hinit
    subst hinit
    have htf : (obj.hasFn .kDagNode && obj.hasFn .kTransform) = obj.hasFn .kTransform := by
      cases ht : obj.hasFn .kTransform with
      | false => simp
      | true => simp [htrans ht]
    refine ⟨⟨rfl, rfl, rfl⟩,
      ⟨htf, htf, htf, htf, htf, htf, htf, htf, htf, htf, htf, htf, htf, htf⟩, ?_⟩
    intro hdag
    simp [hdag]

theorem node_lazy_binding_witness :
    transformHandle.hasGetParent = MObj.hasFn ⟨fun _ => true⟩ .kDagNode ∧
    transformHandle.hasGetBoundingBox = MObj.hasFn ⟨fun _ => true⟩ .kTransform := by
  have h := node_lazy_binding ⟨fun _ => true⟩ "persp" transformHandle (fun _ => rfl) rfl
  exact ⟨h.1.1, h.2.1.1⟩

/-- Counterexample to C1 as stated: a host behaviour on which the underlying
host command raises inside a `getAttr` call, yet the wrapper does not raise
`MayaAttributeError` — the auxiliary type query
`cmds.getAttr(args[0], type=True)` sits outside the `try` block, so its
exception propagates untranslated. -/
theorem getAttr_type_query_untranslated :
    getAttr cexHost = (.error (.hostError [.vStr "boom"]), 2) ∧
    (getAttr cexHost).1 ≠ .error (.mayaAttributeError [.vStr "boom"]) := by
  refine ⟨rfl, ?_⟩
  intro h
  simp [getAttr, cexHost] at h

/-- C1 (amended): a host exception of `getAttr`'s primary query (the call
inside the `try` block) is translated into `MayaAttributeError` carrying the
host error's arguments, with no further host call made; a host exception of
`setAttr`'s single host call is translated the same way; and constructing a
node handle from a name that resolves to no scene object raises
`MayaNodeError`.  (Exceptions of `getAttr`'s auxiliary type query propagate
untranslated; see the counterexample.) -/
theorem host_error_translation :
    (∀ (host : Nat → Except HostErr PyVal) (e : HostErr), host 0 = .error e →
       getAttr host = (.error (.mayaAttributeError e.args), 1)) ∧
    (∀ (host : List PyVal → Kwargs → Except HostErr Unit) (args : List PyVal)
       (kw : Kwargs) (e : HostErr),
       host (setAttrFargs args) (setAttrHostKwargs args kw) = .error e →
       setAttr host args kw = .error (.mayaAttributeError e.args)) ∧
    (∀ (resolve : String → Option MObj) (name : String), resolve name = none →
       nodeInitName resolve name = .error (.mayaNodeError ("No such node " ++ name))) := by
  refine ⟨?_, ?_, ?_⟩
  · intro host e h
    simp [getAttr, h]
  · intro host args kw e h
    simp [setAttr, h]
  · intro resolve name h
    simp [nodeInitName, h]

theorem host_error_translation_witness :
    getAttr (fun _ => .error ⟨[.vStr "No object matches name"]⟩) =
      (.error (.mayaAttributeError [.vStr "No object matches name"]), 1) ∧
    setAttr (fun _ _ => .error ⟨[.vStr "The attribute is locked"]⟩) [.vStr "n.tx"] [] =
      .error (.mayaAttributeError [.vStr "The attribute is locked"]) ∧
    nodeInitName (fun _ => none) "ghost" = .error (.mayaNodeError "No such node ghost") :=
  ⟨host_error_translation.1 _ ⟨[.vStr "No object matches name"]⟩ rfl,
   host_error_translation.2.1 _ [.vStr "n.tx"] [] ⟨[.vStr "The attribute is locked"]⟩ rfl,
   host_error_translation.2.2 (fun _ => none) "ghost" rfl⟩

theorem constraintStep_vNone (fname : String) (kw : Kwargs) :
    constraintStep fname kw .vNone = .ok .vNone := by
  unfold constraintStep
  split
  · simp [pyTruthy]
  · rfl

/-- C2: a `None` host result of any wrapped command whose name starts with
`list` is replaced by the empty list, and `listHistory` and `listConnections`
likewise substitute an empty list when the host returns `None`. -/
theorem list_none_normalization :
    (∀ (bind : String → Option String) (fname : String) (wrapObject : Bool) (kw : Kwargs),
       strStarts fname "list" = true →
       pymayaCmdWrap bind fname wrapObject kw .vNone = .ok (.vList [])) ∧
    (∀ (bind : String → Option String) (nodeTypeOf : String → String)
       (inheritedTypesOf : String → List String) (typ exactType : Option String),
       listHistory bind nodeTypeOf inheritedTypesOf typ exactType none = .vList []) ∧
    (∀ (bind : String → Option String) (host : Nat → Kwargs → Option (List String))
       (kw : Kwargs), host 0 kw = none →
       listConnections bind host false kw = .ok (.vList [])) ∧
    (∀ (bind : String → Option String) (host : Nat → Kwargs → Option (List String))
       (kw : Kwargs), host 0 (lcSourceKwargs kw) = none → host 1 (lcDestKwargs kw) = none →
       listConnections bind host true kw = .ok (.vList [])) := by
  refine ⟨?_, ?_, ?_, ?_⟩
  · intro bind fname wrapObject kw hname
    simp [pymayaCmdWrap, constraintStep_vNone, listNoneStep, hname]
    cases wrapObject <;> simp [nameToObj, nameToObjList]
  · intro bind nodeTypeOf inheritedTypesOf typ exactType
    simp [listHistory, nameToObj, nameToObjList]
  · intro bind host kw h
    simp [listConnections, h, nameToObj, nameToObjList]
  · intro bind host kw h0 h1
    simp [listConnections, h0, h1, pairUpSwap, pairUp, pairsInOrder, pairsSwapped,
      nameToObj, nameToObjList]

theorem list_none_normalization_witness :
    pymayaCmdWrap (fun _ => none) "listRelatives" true [] .vNone = .ok (.vList []) ∧
    listHistory (fun _ => none) (fun _ => "transform") (fun _ => []) none none none =
      .vList [] ∧
    listConnections (fun _ => none) (fun _ _ => none) false [] = .ok (.vList []) ∧
    listConnections (fun _ => none) (fun _ _ => none) true [] = .ok (.vList []) :=
  ⟨list_none_normalization.1 _ "listRelatives" true [] rfl,
   list_none_normalization.2.1 _ _ _ none none,
   list_none_normalization.2.2.1 _ _ [] rfl,
   list_none_normalization.2.2.2 _ _ [] rfl rfl⟩

/-- C3: under `wrap_object=True`, the wrapper's result is the normalized host
result re-wrapped by `_name_to_obj`, which leaves `None` as `None`, turns
every string on which node binding succeeds into a node handle, returns
strings on which binding fails unchanged, and maps list/set/tuple results
elementwise with the container's class preserved. -/
theorem wrap_object_rewrapping :
    (∀ bind : String → Option String, nameToObj bind .vNone = .vNone) ∧
    (∀ (bind : String → Option String) (s n : String), bind s = some n →
       nameToObj bind (.vStr s) = .vNode n) ∧
    (∀ (bind : String → Option String) (s : String), bind s = none →
       nameToObj bind (.vStr s) = .vStr s) ∧
    (∀ (bind : String → Option String) (xs : List PyVal),
       nameToObj bind (.vList xs) = .vList (xs.map (nameToObj bind)) ∧
       nameToObj bind (.vSet xs) = .vSet (xs.map (nameToObj bind)) ∧
       nameToObj bind (.vTuple xs) = .vTuple (xs.map (nameToObj bind))) ∧
    (∀ (bind : String → Option String) (fname : String) (kw : Kwargs) (res : PyVal),
       pymayaCmdWrap bind fname true kw res =
         (constraintStep fname kw res).map (fun r => nameToObj bind (listNoneStep fname r))) := by
  refine ⟨fun _ => rfl, ?_, ?_, ?_, ?_⟩
  · intro bind s n h
    simp [nameToObj, h]
  · intro bind s h
    simp [nameToObj, h]
  · intro bind xs
    exact ⟨by simp [nameToObj, nameToObjList_eq_map],
      by simp [nameToObj, nameToObjList_eq_map],
      by simp [nameToObj, nameToObjList_eq_map]⟩
  · intro bind fname kw res
    cases hc : constraintStep fname kw res <;> simp [pymayaCmdWrap, hc, Except.map]

theorem wrap_object_rewrapping_witness :
    nameToObj (fun s => if s = "pCube1" then some "pCube1" else none) (.vStr "pCube1") =
      .vNode "pCube1" ∧
    nameToObj (fun s => if s = "pCube1" then some "pCube1" else none) (.vStr "nothing") =
      .vStr "nothing" :=
  ⟨wrap_object_rewrapping.2.1 _ "pCube1" "pCube1" rfl,
   wrap_object_rewrapping.2.2.1 _ "nothing" rfl⟩

/-- C7: for every name the `_Mel` proxy resolves through its command lookup
path, the constructed wrapper is stored in the `__cmds` cache, and a repeated
lookup returns the identical cached wrapper object with the state (cache and
identity counter) unchanged. -/
theorem mel_command_cache :
    ∀ (env : MelEnv) (st : MelState) (name : String) (w : MelWrapper) (st' : MelState),
      env.instAttr name = none → name ≠ "eval" →
      melGetattr env st name = .ok (w, st') →
      alookup st'.cache name = some w ∧ melGetattr env st' name = .ok (w, st') := by
  intro env st name w st' hinst hev h
  simp only [melGetattr, hinst] at h ⊢
  cases hcache : alookup st.cache name with
  | some w0 =>
    simp only [hcache] at h
    obtain ⟨hw, hst⟩ := Prod.mk.injEq .. ▸ Except.ok.inj h
    subst hw
    subst hst
    simp [hcache]
  | none =>
    simp only [hcache, if_neg hev] at h
    cases hcmd : env.hasCmd name with
    | true =>
      simp only [hcmd, if_true] at h
      obtain ⟨hw, hst⟩ := Prod.mk.injEq .. ▸ Except.ok.inj h
      subst hw
      subst hst
      have hl : alookup (ains st.cache name (MelWrapper.cmdWrap st.fresh)) name =
          some (MelWrapper.cmdWrap st.fresh) := alookup_ains_self ..
      refine ⟨hl, ?_⟩
      simp [hl]
    | false =>
      simp only [hcmd, Bool.false_eq_true, if_false] at h
      cases hmel : strEnds (env.whatIs name) ".mel" with
      | true =>
        simp only [hmel, if_true] at h
        obtain ⟨hw, hst⟩ := Prod.mk.injEq .. ▸ Except.ok.inj h
        subst hw
        subst hst
        have hl : alookup (ains st.cache name (MelWrapper.melProc name st.fresh)) name =
            some (MelWrapper.melProc name st.fresh) := alookup_ains_self ..
        refine ⟨hl, ?_⟩
        simp [hl]
      | false =>
        simp [hmel] at h

theorem mel_command_cache_witness :
    alookup [("polyCube", MelWrapper.cmdWrap 0)] "polyCube" =
      some (MelWrapper.cmdWrap 0) ∧
    melGetattr ⟨fun _ => none, .instW 0, fun _ => true, fun _ => ""⟩
      ⟨[("polyCube", .cmdWrap 0)], 1⟩ "polyCube" =
      .ok (.cmdWrap 0, ⟨[("polyCube", .cmdWrap 0)], 1⟩) :=
  mel_command_cache ⟨fun _ => none, .instW 0, fun _ => true, fun _ => ""⟩ ⟨[], 0⟩
    "polyCube" (.cmdWrap 0) ⟨[("polyCube", .cmdWrap 0)], 1⟩ rfl (by decide) rfl

/-- C8: the name→Attribute cache of `_Node.attr` and the typename→class
registry of `_NodeTypes` are populated only on misses and never invalidated:
a stored Attribute is returned identically by every later `attr` call and
survives `attr` calls for other names, a typename answered by `getTypeClass`
is answered identically thereafter, registry entries survive `getTypeClass`
calls for other names, and an explicitly registered class is what
`getTypeClass` returns for its typename. -/
theorem attr_and_type_cache_stable :
    (∀ (env : AttrEnv) (cs : Bool) (st : AttrState) (name : String) (a : AttrObj)
       (st' : AttrState),
       nodeAttr env cs st name = .ok (a, st') →
       alookup st'.cache name = some a ∧ nodeAttr env cs st' name = .ok (a, st')) ∧
    (∀ (env : AttrEnv) (cs : Bool) (st : AttrState) (name name' : String) (x b : AttrObj)
       (st'' : AttrState),
       alookup st.cache name = some x →
       nodeAttr env cs st name' = .ok (b, st'') →
       alookup st''.cache name = some x) ∧
    (∀ (A : List String) (st : TypesState) (tn : String) (c : NodeClass) (st' : TypesState),
       getTypeClass A st tn = (some c, st') →
       getTypeClass A st' tn = (some c, st')) ∧
    (∀ (A : List String) (st : TypesState) (tn tn' : String) (c : NodeClass),
       alookup st.types tn = some c →
       alookup ((getTypeClass A st tn').2).types tn = some c) ∧
    (∀ (st : TypesState) (tn : String) (c : NodeClass) (A : List String),
       getTypeClass A (registerClass st tn (some c)) tn =
         (some c, registerClass st tn (some c))) := by
  refine ⟨?_, ?_, ?_, ?_, ?_⟩
  · intro env cs st name a st' h
    simp only [nodeAttr] at h ⊢
    cases hcache : alookup st.cache name with
    | some a0 =>
      simp only [hcache] at h
      obtain ⟨ha, hst⟩ := Prod.mk.injEq .. ▸ Except.ok.inj h
      subst ha
      subst hst
      simp [hcache]
    | none =>
      simp only [hcache] at h
      cases hp : (match env.findPlug (parseAttrIndex name).1 with
        | some p => some p
        | none =>
          if cs then
            match env.shapeFindPlug with
            | some f => f (parseAttrIndex name).1
            | none => none
          else none) with
      | none =>
        simp only [hp] at h
        exact Except.noConfusion h
      | some p =>
        simp only [hp] at h
        obtain ⟨ha, hst⟩ := Prod.mk.injEq .. ▸ Except.ok.inj h
        subst ha
        subst hst
        have hl : alookup (ains st.cache name (attrFromPlug p (parseAttrIndex name).2 st.fresh))
            name = some (attrFromPlug p (parseAttrIndex name).2 st.fresh) := alookup_ains_self ..
        refine ⟨hl, ?_⟩
        simp [hl]
  · intro env cs st name name' x b st'' hx h
    simp only [nodeAttr] at h
    cases hcache : alookup st.cache name' with
    | some b0 =>
      simp only [hcache] at h
      obtain ⟨hb, hst⟩ := Prod.mk.injEq .. ▸ Except.ok.inj h
      subst hst
      exact hx
    | none =>
      simp only [hcache] at h
      cases hp : (match env.findPlug (parseAttrIndex name').1 with
        | some p => some p
        | none =>
          if cs then
            match env.shapeFindPlug with
            | some f => f (parseAttrIndex name').1
            | none => none
          else none) with
      | none =>
        simp only [hp] at h
        exact Except.noConfusion h
      | some p =>
        simp only [hp] at h
        obtain ⟨hb, hst⟩ := Prod.mk.injEq .. ▸ Except.ok.inj h
        subst hst
        have hne : name' ≠ name := by
          intro he
          rw [he] at hcache
          rw [hcache] at hx
          exact Option.noConfusion hx
        rw [alookup_ains_ne _ _ _ _ hne]
        exact hx
  · intro A st tn c st' h
    simp only [getTypeClass] at h ⊢
    cases hl : alookup st.types tn with
    | some c0 =>
      simp only [hl] at h
      obtain ⟨hc, hst⟩ := Prod.mk.injEq .. ▸ h
      subst hst
      simp [hl, hc]
    | none =>
      simp only [hl] at h
      cases hA : A.contains tn with
      | true =>
        simp only [hA, if_true] at h
        obtain ⟨hc, hst⟩ := Prod.mk.injEq .. ▸ h
        subst hst
        simp [hc]
      | false =>
        simp only [hA, Bool.false_eq_true, if_false] at h
        obtain ⟨hc, hst⟩ := Prod.mk.injEq .. ▸ h
        exact Option.noConfusion hc
  · intro A st tn tn' c hx
    simp only [getTypeClass]
    cases hl : alookup st.types tn' with
    | some c0 => simpa using hx
    | none =>
      cases hA : A.contains tn' with
      | true =>
        have hne : tn' ≠ tn := by
          intro he
          rw [he] at hl
          rw [hl] at hx
          exact Option.noConfusion hx
        simp only [hA, if_true, registerClass]
        rw [alookup_ains_ne _ _ _ _ hne]
        exact hx
      | false => simpa [hA] using hx
  · intro st tn c A
    simp only [getTypeClass, registerClass]
    rw [alookup_ains_self]

theorem attr_and_type_cache_stable_witness :
    (alookup [("tx", AttrObj.plugAttr 7 0)] "tx" = some (AttrObj.plugAttr 7 0) ∧
     nodeAttr ⟨fun _ => some 7, none⟩ true ⟨[("tx", .plugAttr 7 0)], 1⟩ "tx" =
       .ok (.plugAttr 7 0, ⟨[("tx", .plugAttr 7 0)], 1⟩)) ∧
    getTypeClass ["joint"] ⟨[("joint", .explicitCls 5)], 0⟩ "joint" =
      (some (.explicitCls 5), ⟨[("joint", .explicitCls 5)], 0⟩) :=
  ⟨attr_and_type_cache_stable.1 ⟨fun _ => some 7, none⟩ true ⟨[], 0⟩ "tx"
      (.plugAttr 7 0) ⟨[("tx", .plugAttr 7 0)], 1⟩ rfl,
   attr_and_type_cache_stable.2.2.1 ["joint"] ⟨[("joint", .explicitCls 5)], 0⟩ "joint"
      (.explicitCls 5) ⟨[("joint", .explicitCls 5)], 0⟩ rfl⟩

theorem pairUp_of_even :
    ∀ l : List String, l.length % 2 = 0 → pairUp l = .ok (pairsInOrder l)
  | [], _ => rfl
  | [a], h => by simp at h
  | a :: b :: rest, h => by
    have ih := pairUp_of_even rest (by simp only [List.length_cons] at h; omega)
    simp [pairUp, pairsInOrder, ih, Except.map]

theorem pairUpSwap_of_even :
    ∀ l : List String, l.length % 2 = 0 → pairUpSwap l = .ok (pairsSwapped l)
  | [], _ => rfl
  | [a], h => by simp at h
  | a :: b :: rest, h => by
    have ih := pairUpSwap_of_even rest (by simp only [List.length_cons] at h; omega)
    simp [pairUpSwap, pairsSwapped, ih, Except.map]

theorem lcForceSource_source (kw : Kwargs) :
    ∃ vs, alookup (lcForceSource kw) "source" = some vs ∧ pyTruthy vs = true := by
  unfold lcForceSource
  cases hs : alookup kw "source" with
  | none => exact ⟨.vBool true, alookup_ains_self .., rfl⟩
  | some v =>
    cases htv : pyTruthy v with
    | true =>
      refine ⟨v, ?_, htv⟩
      simp [htv, hs]
    | false =>
      refine ⟨.vBool true, ?_, rfl⟩
      simp [htv, alookup_ains_self]

theorem lcForceDest_source (kw : Kwargs) :
    alookup (lcForceDest kw) "source" = alookup kw "source" := by
  unfold lcForceDest
  cases hd : alookup kw "destination" with
  | none => exact alookup_ains_ne _ _ _ _ (by decide)
  | some v =>
    cases htv : pyTruthy v with
    | true =>
      simp only [htv, if_true]
      exact alookup_ains_ne _ _ _ _ (by decide)
    | false => simp [htv]

theorem lcForceDest_dest (kw : Kwargs) :
    ∃ vd, alookup (lcForceDest kw) "destination" = some vd ∧ pyTruthy vd = false := by
  unfold lcForceDest
  cases hd : alookup kw "destination" with
  | none => exact ⟨.vBool false, alookup_ains_self .., rfl⟩
  | some v =>
    cases htv : pyTruthy v with
    | true =>
      refine ⟨.vBool false, ?_, rfl⟩
      simp [htv, alookup_ains_self]
    | false =>
      refine ⟨v, ?_, htv⟩
      simp [htv, hd]

theorem lcSourceKwargs_flags (kw : Kwargs) :
    (∃ vs, alookup (lcSourceKwargs kw) "source" = some vs ∧ pyTruthy vs = true) ∧
    (∃ vd, alookup (lcSourceKwargs kw) "destination" = some vd ∧ pyTruthy vd = false) := by
  constructor
  · obtain ⟨vs, hvs, htvs⟩ := lcForceSource_source kw
    refine ⟨vs, ?_, htvs⟩
    rw [lcSourceKwargs, lcForceDest_source]
    exact hvs
  · rw [lcSourceKwargs]
    exact lcForceDest_dest _

/-- C10: `listConnections` with `sourceFirst=True` queries the source side
first (call 0, with a truthy `source` flag and a falsy `destination` flag)
and emits each consecutive host pair swapped as `(b, a)`, then queries the
destination side (call 1, with `source=False`, `destination=True`) and emits
each consecutive pair in place, and returns the destination-side pair list
concatenated before the source-side pair list (re-wrapped through
`_name_to_obj`). -/
theorem listConnections_sourceFirst_pairs :
    ∀ (bind : String → Option String) (host : Nat → Kwargs → Option (List String))
      (kw : Kwargs) (s d : List String),
      host 0 (lcSourceKwargs kw) = some s →
      host 1 (lcDestKwargs kw) = some d →
      s.length % 2 = 0 → d.length % 2 = 0 →
      listConnections bind host true kw =
        .ok (nameToObj bind (.vList ((pairsInOrder d ++ pairsSwapped s).map pairToTuple))) ∧
      (∃ vs, alookup (lcSourceKwargs kw) "source" = some vs ∧ pyTruthy vs = true) ∧
      (∃ vd, alookup (lcSourceKwargs kw) "destination" = some vd ∧ pyTruthy vd = false) ∧
      alookup (lcDestKwargs kw) "source" = some (.vBool false) ∧
      alookup (lcDestKwargs kw) "destination" = some (.vBool true) := by
  intro bind host kw s d h0 h1 hs hd
  refine ⟨?_, (lcSourceKwargs_flags kw).1, (lcSourceKwargs_flags kw).2, ?_, ?_⟩
  · simp [listConnections, h0, h1, pairUp_of_even d hd, pairUpSwap_of_even s hs]
  · unfold lcDestKwargs
    rw [alookup_ains_ne _ _ _ _ (by decide)]
    exact alookup_ains_self ..
  · exact alookup_ains_self ..

theorem listConnections_sourceFirst_pairs_witness :
    listConnections (fun _ => none)
      (fun n _ => if n = 0 then some ["a", "b"] else some ["c", "d"]) true [] =
      .ok (.vList [.vTuple [.vStr "c", .vStr "d"], .vTuple [.vStr "b", .vStr "a"]]) :=
  (listConnections_sourceFirst_pairs (fun _ => none)
    (fun n _ => if n = 0 then some ["a", "b"] else some ["c", "d"])
    [] ["a", "b"] ["c", "d"] rfl rfl rfl rfl).1

end Mgear
